import Mathlib

/-!
Shallow embedding of the GOnnect4 server core (`server/lib/board.go`,
`server/lib/node.go`, `server/lib/direction.go`, `server/lib/game.go`,
`server/matchmaking.go`, `server/handlers.go`) together with theorems
settling the specification claims.

Modelling conventions:
* The board's node graph (`buildGraph`) links node (row,col) to its 8
  compass neighbours exactly when the target coordinates are in range,
  so the graph is embedded as coordinate arithmetic: a "nil neighbour"
  is an out-of-range coordinate.
* Go `time.Time` / `time.Timer` wall-clock values are not state we can
  compute with; the elapsed duration `time.Since(g.TurnStartedAt)` used
  by `stopTimer` is passed as an explicit parameter, and the timer is
  embedded as the pair of flags `timerSet` (`g.Timer != nil`) and
  `timerArmed` (an `AfterFunc` is pending and not yet stopped).
* Randomness (`randomFirstPlayer`, token generation) is passed in as a
  parameter at the call sites that consume it.
* Go `int` / `time.Duration` values are embedded as `Int` (none of the
  modelled code paths can overflow 64 bits).
-/

namespace GOnnect4

/-- Model of `Cell` from game.go: state of a board cell. -/
inductive Cell : Type
  | empty
  | player0
  | player1
deriving DecidableEq, Repr

/-- Model of `GameStatus` from game.go. -/
inductive GameStatus : Type
  | waiting
  | playing
  | finished
deriving DecidableEq, Repr

/-- Model of `GameResult` from game.go. -/
inductive GameResult : Type
  | none
  | player0Win
  | player1Win
  | draw
deriving DecidableEq, Repr

/-- Model of `Direction` from direction.go: the 8 compass neighbour directions. -/
inductive Direction : Type
  | up
  | upRight
  | right
  | downRight
  | down
  | downLeft
  | left
  | upLeft
deriving DecidableEq, Repr

/-- The (row, col) coordinate offset a direction stands for, as set up by
`Board.buildGraph` (row 0 is the top row, so `up` decreases the row). -/
def Direction.delta : Direction → Int × Int
  | .up => (-1, 0)
  | .upRight => (-1, 1)
  | .right => (0, 1)
  | .downRight => (1, 1)
  | .down => (1, 0)
  | .downLeft => (1, -1)
  | .left => (0, -1)
  | .upLeft => (-1, -1)

/-- Model of `Direction.Opposite` from direction.go: `(d + 4) % 8`. -/
def Direction.opposite : Direction → Direction
  | .up => .down
  | .upRight => .downLeft
  | .right => .left
  | .downRight => .upLeft
  | .down => .up
  | .downLeft => .upRight
  | .left => .right
  | .upLeft => .downRight

/-- Board constants from board.go. -/
def rows : Nat := 6

/-- Board constants from board.go. -/
def cols : Nat := 7

/-- Board constants from board.go. -/
def winLength : Nat := 4

/-- A `*Node` returned by the board API: its coordinates and owner
(node.go's `Node`; the neighbour array is recovered from the coordinates,
see `Board.ownerAt`). -/
structure Node : Type where
  row : Nat
  col : Nat
  owner : Cell
deriving DecidableEq, Repr

/-- Model of `Board` from board.go.  `cells r c` is `nodes[r][c].Owner` for
`r < 6`, `c < 7` (values outside that range are junk that the Go code
never reads), and `colHeights c` is `colHeights[c]` for `c < 7`. -/
structure Board : Type where
  cells : Nat → Nat → Cell
  colHeights : Nat → Nat

/-- Model of `NewBoard`: all nodes empty, all column heights 0. -/
def newBoard : Board :=
  { cells := fun _ _ => Cell.empty, colHeights := fun _ => 0 }

/-- Owner of the node at integer coordinates, `none` when the
coordinates are outside the grid — i.e. when the corresponding neighbour
pointer in the Go node graph is nil. -/
def Board.ownerAt (b : Board) (r c : Int) : Option Cell :=
  if 0 ≤ r ∧ r < 6 ∧ 0 ≤ c ∧ c < 7 then some (b.cells r.toNat c.toNat) else none

/-- Model of `Board.canPlay`: `col >= 0 && col < b.cols && b.colHeights[col] < b.rows`. -/
def Board.canPlay (b : Board) (col : Int) : Bool :=
  decide (0 ≤ col) && decide (col < 7) && decide (b.colHeights col.toNat < 6)

/-- Model of `Board.Play`: drop a token for `player` in column `col`; returns the
affected node and the updated board, or `none` where Go returns
`(nil, false)`. -/
def Board.play (b : Board) (col : Int) (player : Cell) : Option (Node × Board) :=
  if b.canPlay col then
    let c := col.toNat
    let row := 6 - 1 - b.colHeights c
    some (⟨row, c, player⟩,
      { cells := fun r c2 => if r = row ∧ c2 = c then player else b.cells r c2,
        colHeights := fun c2 => if c2 = c then b.colHeights c2 + 1 else b.colHeights c2 })
  else
    none

/-- Model of `Board.GetLastPlayedNode`: the node at the top of a column, nil when
the column is out of range or empty. -/
def Board.getLastPlayedNode (b : Board) (col : Int) : Option Node :=
  if col < 0 ∨ 7 ≤ col ∨ b.colHeights col.toNat = 0 then none
  else
    let c := col.toNat
    let row := 6 - b.colHeights c
    some ⟨row, c, b.cells row c⟩

/-- Model of `Board.Reset`: every in-range owner becomes empty, every in-range
column height becomes 0. -/
def Board.reset (b : Board) : Board :=
  { cells := fun r c => if r < 6 ∧ c < 7 then Cell.empty else b.cells r c,
    colHeights := fun c => if c < 7 then 0 else b.colHeights c }

/-- Model of `Board.IsFull`: every column height has reached `rows`. -/
def Board.isFull (b : Board) : Bool :=
  (List.range 7).all fun c => decide (¬ b.colHeights c < 6)

/-- The loop body of `Node.countSequence`: starting at integer
coordinates `(r, c)` walk in direction `(dr, dc)` counting nodes owned
by `o`, stopping at the first nil neighbour (out-of-range coordinate) or
differently-owned node.  `fuel` bounds the recursion; any fuel of at
least 7 is exact because a line of the 6×7 board holds at most 7 nodes
(see `countSeqAux_eq_takeWhile`). -/
def countSeqAux (b : Board) (o : Cell) (dr dc : Int) : Int → Int → Nat → Nat
  | _, _, 0 => 0
  | r, c, fuel + 1 =>
    match b.ownerAt r c with
    | some o2 => if o2 = o then countSeqAux b o dr dc (r + dr) (c + dc) fuel + 1 else 0
    | none => 0

/-- Model of `Node.countSequence`: count consecutive nodes with the same owner as
the node at `(r, c)` in direction `d`, excluding the node itself. -/
def Board.countSequence (b : Board) (r c : Nat) (d : Direction) : Nat :=
  if b.cells r c = Cell.empty then 0
  else
    countSeqAux b (b.cells r c) d.delta.1 d.delta.2
      ((r : Int) + d.delta.1) ((c : Int) + d.delta.2) 8

/-- Model of `Node.CheckWin`: the four orientation checks of node.go. -/
def Board.checkWinAt (b : Board) (r c : Nat) (winLen : Nat) : Bool :=
  if b.cells r c = Cell.empty then false
  else
    decide (winLen ≤ 1 + b.countSequence r c .left + b.countSequence r c .right) ||
    decide (winLen ≤ 1 + b.countSequence r c .up + b.countSequence r c .down) ||
    decide (winLen ≤ 1 + b.countSequence r c .upRight + b.countSequence r c .downLeft) ||
    decide (winLen ≤ 1 + b.countSequence r c .upLeft + b.countSequence r c .downRight)

/-- Model of `Board.CheckWin`: delegate with `WinLength = 4`. -/
def Board.checkWin (b : Board) (n : Node) : Bool :=
  b.checkWinAt n.row n.col winLength

/-- Read component `i` of a Go two-element array embedded as a pair. -/
def pget {α : Type} (p : α × α) (i : Fin 2) : α :=
  if i = 0 then p.1 else p.2

/-- Write component `i` of a Go two-element array embedded as a pair. -/
def pset {α : Type} (p : α × α) (i : Fin 2) (v : α) : α × α :=
  if i = 0 then (v, p.2) else (p.1, v)

/-- The errors `Game.Play` can return (errors.go). -/
inductive PlayErr : Type
  | gameNotPlaying
  | notYourTurn
  | invalidMove
deriving DecidableEq, Repr

/-- Model of `Game` from game.go.  Players are identified by an abstract numeric
identity; the wall-clock fields (`Code`, `CreatedAt`, `LastPlayedAt`,
`TurnStartedAt`) and the callback pointer are omitted, and the Go
`*time.Timer` is embedded as the two flags `timerSet` (`Timer != nil`)
and `timerArmed` (the scheduled `AfterFunc` has not been stopped). -/
structure Game : Type where
  board : Board
  status : GameStatus
  result : GameResult
  players : Option Nat × Option Nat
  currentTurn : Fin 2
  moveCount : Nat
  lastMove : Option (Nat × Nat)
  replayRequests : Bool × Bool
  initialClock : Int
  timeRemaining : Int × Int
  timerSet : Bool
  timerArmed : Bool

/-- Model of `NewGame`. -/
def newGame (initialClock : Int) : Game :=
  { board := newBoard
    status := .waiting
    result := .none
    players := (none, none)
    currentTurn := 0
    moveCount := 0
    lastMove := none
    replayRequests := (false, false)
    initialClock := initialClock
    timeRemaining := (initialClock, initialClock)
    timerSet := false
    timerArmed := false }

/-- The bare `if g.Timer != nil { g.Timer.Stop() }` statement used by
`Play`, `Forfeit` and `reset`: stopping does not debit time and does not
nil the handle. -/
def Game.stopOnly (g : Game) : Game :=
  if g.timerSet then { g with timerArmed := false } else g

/-- Model of `Game.startTimer`: stop any existing timer, then arm a fresh one for
the current player's remaining time.  When the remaining time is already
≤ 0 the Go code fires the callback synchronously and arms nothing; the
callback's effect (a server-routed forfeit) is outside the `Game` state. -/
def Game.startTimer (g : Game) : Game :=
  let g1 := g.stopOnly
  if pget g1.timeRemaining g1.currentTurn ≤ 0 then g1
  else { g1 with timerSet := true, timerArmed := true }

/-- Model of `Game.stopTimer`: when a timer handle exists, stop it and debit the
elapsed duration (`time.Since(g.TurnStartedAt)`, passed explicitly) from
the current player's remaining time, flooring at zero. -/
def Game.stopTimer (g : Game) (elapsed : Int) : Game :=
  if g.timerSet then
    let t := pget g.timeRemaining g.currentTurn - elapsed
    { g with
      timerArmed := false
      timeRemaining := pset g.timeRemaining g.currentTurn (if t < 0 then 0 else t) }
  else g

/-- Model of `Game.start`: begin play once both players are present; the randomly
drawn first player is passed explicitly. -/
def Game.start (g : Game) (firstTurn : Fin 2) : Game :=
  Game.startTimer { g with currentTurn := firstTurn, status := .playing }

/-- Model of `Game.AddPlayer`: fill the first free slot while waiting; filling
slot 1 starts the game. -/
def Game.addPlayer (g : Game) (p : Nat) (firstTurn : Fin 2) : Game × Bool :=
  if g.status ≠ .waiting then (g, false)
  else
    match g.players.1 with
    | none => ({ g with players := (some p, g.players.2) }, true)
    | some _ =>
      match g.players.2 with
      | none => (Game.start { g with players := (g.players.1, some p) } firstTurn, true)
      | some _ => (g, false)

/-- Model of `Game.Play`: returns the post-call state together with the error Go
would return (`none` = success). -/
def Game.play (g : Game) (playerIdx : Fin 2) (col : Int) (elapsed : Int) :
    Game × Option PlayErr :=
  if g.status ≠ .playing then (g, some .gameNotPlaying)
  else if playerIdx ≠ g.currentTurn then (g, some .notYourTurn)
  else
    let g1 := g.stopTimer elapsed
    let player : Cell := if playerIdx = 0 then .player0 else .player1
    match g1.board.play col player with
    | none => (g1, some .invalidMove)
    | some (node, b2) =>
      let g2 := { g1 with
        board := b2
        moveCount := g1.moveCount + 1
        lastMove := some (node.col, node.row) }
      if b2.checkWin node then
        ({ g2.stopOnly with
            status := .finished
            result := if playerIdx = 0 then .player0Win else .player1Win }, none)
      else if b2.isFull then
        ({ g2.stopOnly with status := .finished, result := .draw }, none)
      else
        (Game.startTimer { g2 with currentTurn := 1 - g2.currentTurn }, none)

/-- Model of `Game.Forfeit`: no-op unless playing; otherwise stop the timer and
award the win to the opponent (`Result = GameResult(opponentIdx + 1)`). -/
def Game.forfeit (g : Game) (loserIdx : Fin 2) : Game :=
  if g.status ≠ .playing then g
  else
    { g.stopOnly with
      status := .finished
      result := if loserIdx = 0 then .player1Win else .player0Win }

/-- Model of `Game.swapBeginningPlayer`. -/
def Game.swapBeginningPlayer (g : Game) : Game :=
  { g with players := (g.players.2, g.players.1) }

/-- Model of `Game.reset`: restart for a new round. -/
def Game.resetGame (g : Game) : Game :=
  let g1 := g.stopOnly
  Game.startTimer
    { g1 with
      board := g1.board.reset
      status := .playing
      result := .none
      currentTurn := 0
      moveCount := 0
      replayRequests := (false, false)
      lastMove := none
      timeRemaining := (g1.initialClock, g1.initialClock) }

/-- Model of `Game.RequestReplay`: mark the request; when both players have
requested, reset the game and swap the player order, returning true. -/
def Game.requestReplay (g : Game) (playerIdx : Fin 2) : Game × Bool :=
  if g.status ≠ .finished then (g, false)
  else
    let g1 := { g with replayRequests := pset g.replayRequests playerIdx true }
    if g1.replayRequests.1 && g1.replayRequests.2 then
      (g1.resetGame.swapBeginningPlayer, true)
    else (g1, false)

/-! Matchmaking queue (`server/matchmaking.go`).  `PlayerID`s are
abstract numeric identities; whether a popped player still exists in the
lobby and is connected is the predicate `conn` sampled at the step. -/

/-- The queue effect of `handleJoinMatchmaking` once the caller's player
was found in the lobby: append unless already present. -/
def joinQueue (q : List Nat) (pid : Nat) : List Nat :=
  if pid ∈ q then q else q ++ [pid]

/-- The removal loop shared by `handleLeaveMatchmaking` and the
disconnect cleanup block: rebuild the queue without the first occurrence
of `pid`. -/
def removeFirst : List Nat → Nat → List Nat
  | [], _ => []
  | x :: xs, pid => if x = pid then xs else x :: removeFirst xs pid

/-- The queue effect of `tryMatchPlayers`: pop the first two; when both
are still connected they go into a fresh game, otherwise any connected
survivor is reinserted at the head. -/
def tryMatch (q : List Nat) (conn : Nat → Bool) : List Nat :=
  match q with
  | p1 :: p2 :: rest =>
    if conn p1 && conn p2 then rest
    else
      let q1 := if conn p1 then p1 :: rest else rest
      if conn p2 then p2 :: q1 else q1
  | _ => q

/-- Queue states reachable by any sequence of matchmaking commands and
disconnect cleanups, starting from the empty queue `NewServer` builds. -/
inductive QReach : List Nat → Prop
  | nil : QReach []
  | join (pid : Nat) {q : List Nat} : QReach q → QReach (joinQueue q pid)
  | leave (pid : Nat) {q : List Nat} : QReach q → QReach (removeFirst q pid)
  | tryMatch (conn : Nat → Bool) {q : List Nat} : QReach q → QReach (tryMatch q conn)
  | disconnect (pid : Nat) {q : List Nat} : QReach q → QReach (removeFirst q pid)

/-! Login (`server/handlers.go` `handleLogin` and `lib.NewPlayer`). -/

/-- The lobby-visible part of a `Player`. -/
structure SPlayer : Type where
  id : String
  username : String
deriving DecidableEq, Repr

/-- Lobby lookup (`srv.lobby[*data.PlayerID]`), the lobby being embedded
as the list of its players (ids unique in any reachable lobby). -/
def lookupPlayer (lobby : List SPlayer) (pid : String) : Option SPlayer :=
  lobby.find? fun p => p.id = pid

/-- Outcome of `handleLogin`: an `invalid username` error reply, or the
id of the player the client got bound to. -/
inductive LoginOut : Type
  | err
  | ok (boundId : String)
deriving DecidableEq, Repr

/-- The new-player branch of `handleLogin` (`lib.NewPlayer` plus the
lobby insertion); the randomly generated token is passed as `freshId`. -/
def loginNew (lobby : List SPlayer) (username : String) (freshId : String) :
    List SPlayer × LoginOut :=
  if username.trim = "" then (lobby, .err)
  else (lobby ++ [{ id := freshId, username := username.trim }], .ok freshId)

/-- Model of `handleLogin`: reconnection reuses the existing player and overwrites
its username with the supplied (untrimmed) string; otherwise a new player
is created. -/
def handleLogin (lobby : List SPlayer) (username : String) (prior : Option String)
    (freshId : String) : List SPlayer × LoginOut :=
  match prior with
  | some pid =>
    match lookupPlayer lobby pid with
    | some _ =>
      (lobby.map fun p => if p.id = pid then { p with username := username } else p, .ok pid)
    | none => loginNew lobby username freshId
  | none => loginNew lobby username freshId

/-! Spec-side definitions and invariants. -/

/-- True when the node at integer coordinates `(r, c)` exists and is
owned by `o`. -/
def sameOwnerAt (b : Board) (o : Cell) (r c : Int) : Bool :=
  match b.ownerAt r c with
  | some o2 => decide (o2 = o)
  | none => false

/-- Walk count written from the specification's words: the number of
consecutive nodes owned by `o` reached by walking from `(r, c)` in
direction `d` (excluding `(r, c)` itself), i.e. the length of the
maximal prefix of the ray `(r, c) + i·d`, `i = 1, 2, …`, whose nodes
exist and are owned by `o`.  Offsets beyond 7 necessarily leave the 6×7
grid, so the ray is cut at 8 entries without loss. -/
def specWalk (b : Board) (o : Cell) (r c : Nat) (d : Direction) : Nat :=
  ((List.range' 1 8).takeWhile fun (i : Nat) =>
    sameOwnerAt b o ((r : Int) + (i : Int) * d.delta.1)
      ((c : Int) + (i : Int) * d.delta.2)).length

/-- Invariant G1 of the specification: `Status=Waiting` iff `Players[1]`
is absent; `Status=Playing` iff both players are present and
`Result=None`; `Status=Finished` iff `Result≠None`. -/
def statusConsistent (g : Game) : Prop :=
  (g.status = .waiting ↔ g.players.2 = none) ∧
  (g.status = .playing ↔ g.players.1 ≠ none ∧ g.players.2 ≠ none ∧ g.result = .none) ∧
  (g.status = .finished ↔ g.result ≠ .none)

/-- Strengthening of G1 that is inductive: a finished game still holds
both players (the code never removes a player from a game). -/
def gameInv (g : Game) : Prop :=
  statusConsistent g ∧ (g.status = .finished → g.players.1 ≠ none ∧ g.players.2 ≠ none)

/-- Game states reachable from `NewGame` by the public operations, with
the random first player and the elapsed turn durations universally
quantified. -/
inductive GReach : Game → Prop
  | new (c : Int) : GReach (newGame c)
  | addPlayer {g : Game} (p : Nat) (t : Fin 2) : GReach g → GReach (g.addPlayer p t).1
  | play {g : Game} (i : Fin 2) (col elapsed : Int) :
      GReach g → GReach (g.play i col elapsed).1
  | forfeit {g : Game} (i : Fin 2) : GReach g → GReach (g.forfeit i)
  | requestReplay {g : Game} (i : Fin 2) : GReach g → GReach (g.requestReplay i).1

/-- Number of non-empty cells of column `c`. -/
def colCount (b : Board) (c : Nat) : Nat :=
  ((List.range 6).filter fun r => decide (b.cells r c ≠ Cell.empty)).length

/-- Number of non-empty cells of the whole board (column by column). -/
def totalCount (b : Board) : Nat :=
  ((List.range 7).map fun c => colCount b c).sum

/-- Sum of the column heights. -/
def heightsSum (b : Board) : Nat :=
  ((List.range 7).map b.colHeights).sum

/-- Board invariants B1 and B2: heights stay within range and each
column is filled contiguously from the bottom (`rows − colHeights[c]` is
the topmost occupied row). -/
def boardInv (b : Board) : Prop :=
  ∀ c < 7, b.colHeights c ≤ 6 ∧
    ∀ r < 6, (b.cells r c ≠ Cell.empty ↔ 6 - b.colHeights c ≤ r)

/-- Board states reachable from `NewBoard` by `Play` (with a real player
token, per the specification's `owner ∈ {Player0, Player1}` signature)
and `Reset`. -/
inductive BReach : Board → Prop
  | new : BReach newBoard
  | play {b : Board} (col : Int) (owner : Cell) (n : Node) (b2 : Board)
      (howner : owner = Cell.player0 ∨ owner = Cell.player1)
      (hp : b.play col owner = some (n, b2)) : BReach b → BReach b2
  | reset {b : Board} : BReach b → BReach b.reset

/-! Concrete states used by counterexamples and witnesses. -/

/-- A playing game with an armed timer and full clocks: the state of a
fresh two-player game whose first player is player 0. -/
def gPlaying : Game :=
  { board := newBoard
    status := .playing
    result := .none
    players := (some 1, some 2)
    currentTurn := 0
    moveCount := 0
    lastMove := none
    replayRequests := (false, false)
    initialClock := 150
    timeRemaining := (150, 150)
    timerSet := true
    timerArmed := true }

/-- A finished game in which player 1 already requested a replay. -/
def gFinished : Game :=
  { gPlaying with
    status := .finished
    result := .player0Win
    replayRequests := (false, true)
    timerArmed := false }

/-- A board holding a horizontal row of four player-0 tokens on the
bottom row. -/
def bWin : Board :=
  { cells := fun r c => if r = 5 ∧ c < 4 then Cell.player0 else Cell.empty,
    colHeights := fun c => if c < 4 then 1 else 0 }

/-! Board lemmas. -/

theorem canPlay_eq_true {b : Board} {col : Int} :
    b.canPlay col = true ↔ 0 ≤ col ∧ col < 7 ∧ b.colHeights col.toNat < 6 := by
  simp [Board.canPlay, and_assoc]

theorem play_eq_none {b : Board} {col : Int} :
    b.play col owner = none ↔ ¬ (0 ≤ col ∧ col < 7 ∧ b.colHeights col.toNat < 6) := by
  rw [← canPlay_eq_true]
  unfold Board.play
  by_cases h : b.canPlay col = true <;> simp [h]

theorem play_eq_some {b : Board} {col : Int} {owner : Cell} {n : Node} {b2 : Board}
    (hp : b.play col owner = some (n, b2)) :
    (0 ≤ col ∧ col < 7 ∧ b.colHeights col.toNat < 6) ∧
    n = ⟨6 - 1 - b.colHeights col.toNat, col.toNat, owner⟩ ∧
    b2 = { cells := fun r c2 =>
             if r = 6 - 1 - b.colHeights col.toNat ∧ c2 = col.toNat then owner
             else b.cells r c2,
           colHeights := fun c2 =>
             if c2 = col.toNat then b.colHeights c2 + 1 else b.colHeights c2 } := by
  by_cases h : b.canPlay col = true
  · refine ⟨canPlay_eq_true.mp h, ?_⟩
    unfold Board.play at hp
    rw [if_pos h] at hp
    simp only [Option.some.injEq, Prod.mk.injEq] at hp
    exact ⟨hp.1.symm, hp.2.symm⟩
  · unfold Board.play at hp
    rw [if_neg h] at hp
    cases hp

/-- Claim C3: `Board.Play(col, owner)` with `owner ∈ {Player0, Player1}`
fails exactly when `col < 0`, `col ≥ Cols`, or `colHeights[col] = Rows`;
otherwise it places the token at row `Rows − 1 − colHeights[col]`,
increments `colHeights[col]`, leaves every other cell and column height
unchanged, and returns the affected node. -/
theorem board_play_spec (b : Board) (col : Int) (owner : Cell)
    (howner : owner = Cell.player0 ∨ owner = Cell.player1)
    (hh : b.colHeights col.toNat ≤ 6) :
    (b.play col owner = none ↔ col < 0 ∨ 7 ≤ col ∨ b.colHeights col.toNat = 6) ∧
    (∀ n b2, b.play col owner = some (n, b2) →
      n = ⟨6 - 1 - b.colHeights col.toNat, col.toNat, owner⟩ ∧
      b2.cells (6 - 1 - b.colHeights col.toNat) col.toNat = owner ∧
      b2.colHeights col.toNat = b.colHeights col.toNat + 1 ∧
      (∀ r c2, ¬ (r = 6 - 1 - b.colHeights col.toNat ∧ c2 = col.toNat) →
        b2.cells r c2 = b.cells r c2) ∧
      (∀ c2, c2 ≠ col.toNat → b2.colHeights c2 = b.colHeights c2)) := by
  constructor
  · rw [play_eq_none]
    omega
  · intro n b2 hp
    obtain ⟨-, hn, hb2⟩ := play_eq_some hp
    subst hn hb2
    refine ⟨rfl, by simp, by simp, ?_, ?_⟩
    · intro r c2 hrc
      simp only [if_neg hrc]
    · intro c2 hc2
      simp only [if_neg hc2]

/-- Witness for C3 at a concrete input: dropping a player-0 token into
column 3 of the empty board. -/
theorem board_play_spec_witness :
    ((Cell.player0 = Cell.player0 ∨ Cell.player0 = Cell.player1) ∧
      newBoard.colHeights (3 : Int).toNat ≤ 6) ∧
    (newBoard.play 3 Cell.player0 = none ↔
      (3 : Int) < 0 ∨ 7 ≤ (3 : Int) ∨ newBoard.colHeights (3 : Int).toNat = 6) :=
  ⟨⟨Or.inl rfl, by decide⟩,
    (board_play_spec newBoard 3 Cell.player0 (Or.inl rfl) (by decide)).1⟩

theorem getLastPlayedNode_pos {b : Board} {col : Int} (h0 : 0 ≤ col) (h7 : col < 7)
    (hne : b.colHeights col.toNat ≠ 0) :
    b.getLastPlayedNode col =
      some ⟨6 - b.colHeights col.toNat, col.toNat,
        b.cells (6 - b.colHeights col.toNat) col.toNat⟩ := by
  have h : ¬ (col < 0 ∨ 7 ≤ col ∨ b.colHeights col.toNat = 0) := by
    push_neg
    exact ⟨by omega, by omega, hne⟩
  unfold Board.getLastPlayedNode
  rw [if_neg h]

/-- Claim C10: a successful `Board.Play(col, owner)` returning node `n`
is immediately observable through `Board.GetLastPlayedNode(col)`, which
returns that same node; and `GetLastPlayedNode(col)` returns nil exactly
when `col` is out of range or column `col` is empty (the height bound
hypothesis excludes states the Go code would panic on). -/
theorem play_getLastPlayedNode (b : Board) (col : Int) (owner : Cell) :
    (∀ n b2, b.play col owner = some (n, b2) → b2.getLastPlayedNode col = some n) ∧
    (b.colHeights col.toNat ≤ 6 →
      (b.getLastPlayedNode col = none ↔
        col < 0 ∨ 7 ≤ col ∨ b.colHeights col.toNat = 0)) := by
  constructor
  · intro n b2 hp
    obtain ⟨⟨h0, h7, hh⟩, hn, hb2⟩ := play_eq_some hp
    have hhts : b2.colHeights col.toNat = b.colHeights col.toNat + 1 := by
      rw [hb2]
      simp
    subst hn
    rw [getLastPlayedNode_pos h0 h7 (by omega), hhts,
      show 6 - (b.colHeights col.toNat + 1) = 6 - 1 - b.colHeights col.toNat by omega]
    rw [hb2]
    simp
  · intro hh
    unfold Board.getLastPlayedNode
    by_cases h : col < 0 ∨ 7 ≤ col ∨ b.colHeights col.toNat = 0
    · rw [if_pos h]
      simp [h]
    · rw [if_neg h]
      simp [h]

/-- Witness for C10 at a concrete input: the empty board with column 0
empty, where `GetLastPlayedNode` returns nil. -/
theorem play_getLastPlayedNode_witness :
    newBoard.colHeights (0 : Int).toNat ≤ 6 ∧
    (newBoard.getLastPlayedNode 0 = none ↔
      (0 : Int) < 0 ∨ 7 ≤ (0 : Int) ∨ newBoard.colHeights (0 : Int).toNat = 0) :=
  ⟨by decide, (play_getLastPlayedNode newBoard 0 Cell.player0).2 (by decide)⟩

/-! Win detection: the code's bounded walk agrees with the
specification's maximal-prefix count. -/

theorem countSeqAux_succ (b : Board) (o : Cell) (dr dc r c : Int) (n : Nat) :
    countSeqAux b o dr dc r c (n + 1) =
      if sameOwnerAt b o r c then countSeqAux b o dr dc (r + dr) (c + dc) n + 1
      else 0 := by
  cases h : b.ownerAt r c with
  | none => simp [countSeqAux, sameOwnerAt, h]
  | some o2 => by_cases h2 : o2 = o <;> simp [countSeqAux, sameOwnerAt, h, h2]

theorem countSeqAux_eq_takeWhile (b : Board) (o : Cell) (dr dc : Int) :
    ∀ (fuel s : Nat) (r c : Int),
      countSeqAux b o dr dc (r + ((s : Int) + 1) * dr) (c + ((s : Int) + 1) * dc) fuel =
        ((List.range' (s + 1) fuel).takeWhile fun (i : Nat) =>
          sameOwnerAt b o (r + (i : Int) * dr) (c + (i : Int) * dc)).length := by
  intro fuel
  induction fuel with
  | zero => intro s r c; simp [countSeqAux, List.range']
  | succ n ih =>
    intro s r c
    rw [countSeqAux_succ, List.range'_succ, List.takeWhile_cons]
    have harg : ∀ x : Int,
        x + ((s + 1 : Nat) : Int) * dr = x + ((s : Int) + 1) * dr := by
      intro x
      push_cast
      ring
    by_cases hsame :
        sameOwnerAt b o (r + ((s : Int) + 1) * dr) (c + ((s : Int) + 1) * dc) = true
    · have hsame2 :
          (fun (i : Nat) => sameOwnerAt b o (r + (i : Int) * dr) (c + (i : Int) * dc))
            (s + 1) = true := by
        show sameOwnerAt b o (r + ((s + 1 : Nat) : Int) * dr)
          (c + ((s + 1 : Nat) : Int) * dc) = true
        rw [show (r + ((s + 1 : Nat) : Int) * dr) = r + ((s : Int) + 1) * dr by
              push_cast; ring,
            show (c + ((s + 1 : Nat) : Int) * dc) = c + ((s : Int) + 1) * dc by
              push_cast; ring]
        exact hsame
      rw [if_pos hsame, if_pos hsame2]
      have := ih (s + 1) r c
      rw [show r + ((s : Int) + 1) * dr + dr = r + (((s + 1 : Nat) : Int) + 1) * dr by
            push_cast; ring,
          show c + ((s : Int) + 1) * dc + dc = c + (((s + 1 : Nat) : Int) + 1) * dc by
            push_cast; ring,
          this]
      simp
    · have hsame2 :
          (fun (i : Nat) => sameOwnerAt b o (r + (i : Int) * dr) (c + (i : Int) * dc))
            (s + 1) = true → False := by
        intro hcon
        apply hsame
        rw [show (r + ((s : Int) + 1) * dr) = r + ((s + 1 : Nat) : Int) * dr by
              push_cast; ring,
            show (c + ((s : Int) + 1) * dc) = c + ((s + 1 : Nat) : Int) * dc by
              push_cast; ring]
        exact hcon
      rw [if_neg hsame, if_neg hsame2]
      simp

theorem countSequence_eq_specWalk (b : Board) (r c : Nat) (d : Direction)
    (h : b.cells r c ≠ Cell.empty) :
    b.countSequence r c d = specWalk b (b.cells r c) r c d := by
  unfold Board.countSequence specWalk
  rw [if_neg h]
  have := countSeqAux_eq_takeWhile b (b.cells r c) d.delta.1 d.delta.2 8 0 r c
  simpa using this

/-- Claim C2: for every board and every non-empty node on it,
`Board.CheckWin` reports a win iff, in at least one of the four line
orientations, 1 plus the count of consecutive same-owner nodes walking
one direction plus the count walking the opposite direction (each walk
excluding the node itself and stopping at the first empty,
differently-owned, or missing neighbour) is at least `WinLength = 4`. -/
theorem checkWin_iff_lines (b : Board) (r c : Nat) (h : b.cells r c ≠ Cell.empty) :
    b.checkWin ⟨r, c, b.cells r c⟩ = true ↔
      (4 ≤ 1 + specWalk b (b.cells r c) r c .left
             + specWalk b (b.cells r c) r c (Direction.opposite .left) ∨
       4 ≤ 1 + specWalk b (b.cells r c) r c .up
             + specWalk b (b.cells r c) r c (Direction.opposite .up) ∨
       4 ≤ 1 + specWalk b (b.cells r c) r c .upRight
             + specWalk b (b.cells r c) r c (Direction.opposite .upRight) ∨
       4 ≤ 1 + specWalk b (b.cells r c) r c .upLeft
             + specWalk b (b.cells r c) r c (Direction.opposite .upLeft)) := by
  unfold Board.checkWin Board.checkWinAt winLength
  rw [if_neg h]
  simp only [Bool.or_eq_true, decide_eq_true_eq,
    countSequence_eq_specWalk b r c _ h, Direction.opposite]
  tauto

/-- Witness for C2 at a concrete input: the board holding four player-0
tokens on the bottom row, checked at the leftmost of them. -/
theorem checkWin_iff_lines_witness :
    bWin.cells 5 0 ≠ Cell.empty ∧
    (bWin.checkWin ⟨5, 0, bWin.cells 5 0⟩ = true ↔
      (4 ≤ 1 + specWalk bWin (bWin.cells 5 0) 5 0 .left
             + specWalk bWin (bWin.cells 5 0) 5 0 (Direction.opposite .left) ∨
       4 ≤ 1 + specWalk bWin (bWin.cells 5 0) 5 0 .up
             + specWalk bWin (bWin.cells 5 0) 5 0 (Direction.opposite .up) ∨
       4 ≤ 1 + specWalk bWin (bWin.cells 5 0) 5 0 .upRight
             + specWalk bWin (bWin.cells 5 0) 5 0 (Direction.opposite .upRight) ∨
       4 ≤ 1 + specWalk bWin (bWin.cells 5 0) 5 0 .upLeft
             + specWalk bWin (bWin.cells 5 0) 5 0 (Direction.opposite .upLeft))) :=
  ⟨by decide, checkWin_iff_lines bWin 5 0 (by decide)⟩

/-! Game helper lemmas: which fields each timer primitive can touch. -/

@[simp] theorem stopOnly_board (g : Game) : g.stopOnly.board = g.board := by
  unfold Game.stopOnly
  split <;> rfl

@[simp] theorem stopOnly_status (g : Game) : g.stopOnly.status = g.status := by
  unfold Game.stopOnly
  split <;> rfl

@[simp] theorem stopOnly_result (g : Game) : g.stopOnly.result = g.result := by
  unfold Game.stopOnly
  split <;> rfl

@[simp] theorem stopOnly_players (g : Game) : g.stopOnly.players = g.players := by
  unfold Game.stopOnly
  split <;> rfl

@[simp] theorem stopOnly_currentTurn (g : Game) : g.stopOnly.currentTurn = g.currentTurn := by
  unfold Game.stopOnly
  split <;> rfl

@[simp] theorem stopOnly_moveCount (g : Game) : g.stopOnly.moveCount = g.moveCount := by
  unfold Game.stopOnly
  split <;> rfl

@[simp] theorem stopOnly_lastMove (g : Game) : g.stopOnly.lastMove = g.lastMove := by
  unfold Game.stopOnly
  split <;> rfl

@[simp] theorem stopOnly_replayRequests (g : Game) :
    g.stopOnly.replayRequests = g.replayRequests := by
  unfold Game.stopOnly
  split <;> rfl

@[simp] theorem stopOnly_initialClock (g : Game) :
    g.stopOnly.initialClock = g.initialClock := by
  unfold Game.stopOnly
  split <;> rfl

@[simp] theorem stopOnly_timeRemaining (g : Game) :
    g.stopOnly.timeRemaining = g.timeRemaining := by
  unfold Game.stopOnly
  split <;> rfl

@[simp] theorem startTimer_board (g : Game) : g.startTimer.board = g.board := by
  unfold Game.startTimer
  dsimp only
  split <;> simp

@[simp] theorem startTimer_status (g : Game) : g.startTimer.status = g.status := by
  unfold Game.startTimer
  dsimp only
  split <;> simp

@[simp] theorem startTimer_result (g : Game) : g.startTimer.result = g.result := by
  unfold Game.startTimer
  dsimp only
  split <;> simp

@[simp] theorem startTimer_players (g : Game) : g.startTimer.players = g.players := by
  unfold Game.startTimer
  dsimp only
  split <;> simp

@[simp] theorem startTimer_currentTurn (g : Game) :
    g.startTimer.currentTurn = g.currentTurn := by
  unfold Game.startTimer
  dsimp only
  split <;> simp

@[simp] theorem startTimer_moveCount (g : Game) : g.startTimer.moveCount = g.moveCount := by
  unfold Game.startTimer
  dsimp only
  split <;> simp

@[simp] theorem startTimer_lastMove (g : Game) : g.startTimer.lastMove = g.lastMove := by
  unfold Game.startTimer
  dsimp only
  split <;> simp

@[simp] theorem startTimer_replayRequests (g : Game) :
    g.startTimer.replayRequests = g.replayRequests := by
  unfold Game.startTimer
  dsimp only
  split <;> simp

@[simp] theorem startTimer_initialClock (g : Game) :
    g.startTimer.initialClock = g.initialClock := by
  unfold Game.startTimer
  dsimp only
  split <;> simp

@[simp] theorem startTimer_timeRemaining (g : Game) :
    g.startTimer.timeRemaining = g.timeRemaining := by
  unfold Game.startTimer
  dsimp only
  split <;> simp

@[simp] theorem stopTimer_board (g : Game) (e : Int) : (g.stopTimer e).board = g.board := by
  unfold Game.stopTimer
  split <;> rfl

@[simp] theorem stopTimer_status (g : Game) (e : Int) :
    (g.stopTimer e).status = g.status := by
  unfold Game.stopTimer
  split <;> rfl

@[simp] theorem stopTimer_result (g : Game) (e : Int) :
    (g.stopTimer e).result = g.result := by
  unfold Game.stopTimer
  split <;> rfl

@[simp] theorem stopTimer_players (g : Game) (e : Int) :
    (g.stopTimer e).players = g.players := by
  unfold Game.stopTimer
  split <;> rfl

@[simp] theorem stopTimer_currentTurn (g : Game) (e : Int) :
    (g.stopTimer e).currentTurn = g.currentTurn := by
  unfold Game.stopTimer
  split <;> rfl

@[simp] theorem stopTimer_moveCount (g : Game) (e : Int) :
    (g.stopTimer e).moveCount = g.moveCount := by
  unfold Game.stopTimer
  split <;> rfl

@[simp] theorem stopTimer_lastMove (g : Game) (e : Int) :
    (g.stopTimer e).lastMove = g.lastMove := by
  unfold Game.stopTimer
  split <;> rfl

@[simp] theorem stopTimer_replayRequests (g : Game) (e : Int) :
    (g.stopTimer e).replayRequests = g.replayRequests := by
  unfold Game.stopTimer
  split <;> rfl

@[simp] theorem stopTimer_initialClock (g : Game) (e : Int) :
    (g.stopTimer e).initialClock = g.initialClock := by
  unfold Game.stopTimer
  split <;> rfl

/-- Evaluation of `Game.Play` on the not-playing error path. -/
theorem play_not_playing {g : Game} (h : g.status ≠ .playing) (p : Fin 2)
    (col elapsed : Int) : g.play p col elapsed = (g, some .gameNotPlaying) := by
  unfold Game.play
  rw [if_pos h]

/-- Evaluation of `Game.Play` on the wrong-turn error path. -/
theorem play_wrong_turn {g : Game} (h : g.status = .playing) {p : Fin 2}
    (hp : p ≠ g.currentTurn) (col elapsed : Int) :
    g.play p col elapsed = (g, some .notYourTurn) := by
  unfold Game.play
  rw [if_neg (by simpa using h), if_pos hp]

/-- Evaluation of `Game.Play` on the invalid-move error path: the timer
has already been stopped and debited. -/
theorem play_invalid_move {g : Game} (h : g.status = .playing) {p : Fin 2}
    (hp : p = g.currentTurn) {col elapsed : Int}
    (hb : (g.stopTimer elapsed).board.play col
        (if p = 0 then Cell.player0 else Cell.player1) = none) :
    g.play p col elapsed = (g.stopTimer elapsed, some .invalidMove) := by
  unfold Game.play
  rw [if_neg (by simpa using h), if_neg (by simpa using hp)]
  dsimp only
  rw [hb]

/-- Claim C1 (amended): when `Game.Play` returns an error, the Board,
MoveCount and CurrentTurn are always unchanged; for the not-playing and
wrong-turn errors the whole state is unchanged, but for the invalid-move
error the call has already executed `stopTimer`, so the elapsed time has
been debited from `TimeRemaining[CurrentTurn]` (floored at zero) and no
timer is left armed. -/
theorem play_error_state (g : Game) (p : Fin 2) (col elapsed : Int) (e : PlayErr)
    (h : (g.play p col elapsed).2 = some e) :
    (g.play p col elapsed).1.board = g.board ∧
    (g.play p col elapsed).1.moveCount = g.moveCount ∧
    (g.play p col elapsed).1.currentTurn = g.currentTurn ∧
    ((e = .gameNotPlaying ∨ e = .notYourTurn) → (g.play p col elapsed).1 = g) ∧
    (e = .invalidMove → (g.play p col elapsed).1 = g.stopTimer elapsed) := by
  by_cases h1 : g.status = .playing
  · by_cases h2 : p = g.currentTurn
    · cases hb : (g.stopTimer elapsed).board.play col
          (if p = 0 then Cell.player0 else Cell.player1) with
      | none =>
        rw [play_invalid_move h1 h2 hb] at h ⊢
        refine ⟨by simp, by simp, by simp, ?_, fun _ => rfl⟩
        rintro (he | he) <;>
          · rw [show e = PlayErr.invalidMove from (Option.some.inj h).symm] at he
            cases he
      | some pr =>
        exfalso
        unfold Game.play at h
        rw [if_neg (by simpa using h1), if_neg (by simpa using h2)] at h
        dsimp only at h
        rw [hb] at h
        dsimp only at h
        by_cases hw : pr.2.checkWin pr.1
        · rw [if_pos hw] at h
          cases h
        · rw [if_neg hw] at h
          by_cases hf : pr.2.isFull
          · rw [if_pos hf] at h
            cases h
          · rw [if_neg hf] at h
            cases h
    · rw [play_wrong_turn h1 h2 col elapsed] at h ⊢
      refine ⟨rfl, rfl, rfl, fun _ => rfl, ?_⟩
      intro he
      rw [show e = PlayErr.notYourTurn from (Option.some.inj h).symm] at he
      cases he
  · rw [play_not_playing h1 p col elapsed] at h ⊢
    refine ⟨rfl, rfl, rfl, fun _ => rfl, ?_⟩
    intro he
    rw [show e = PlayErr.gameNotPlaying from (Option.some.inj h).symm] at he
    cases he

/-- Witness for the amended C1 at a concrete input: playing out of turn
leaves the game record untouched. -/
theorem play_error_state_witness :
    (gPlaying.play 1 0 5).2 = some PlayErr.notYourTurn ∧
    (gPlaying.play 1 0 5).1 = gPlaying :=
  ⟨by decide,
    (play_error_state gPlaying 1 0 5 .notYourTurn (by decide)).2.2.2.1 (Or.inr rfl)⟩

/-- Counterexample to claim C1 as stated: in a playing game with an
armed timer and 150 time units left, playing column −1 after 5 elapsed
units returns the invalid-move error, yet the current player's remaining
time has dropped to 145 and the timer is no longer armed. -/
theorem play_error_mutates_clock :
    (gPlaying.play 0 (-1) 5).2 = some PlayErr.invalidMove ∧
    (gPlaying.play 0 (-1) 5).1.timeRemaining ≠ gPlaying.timeRemaining ∧
    (gPlaying.play 0 (-1) 5).1.timerArmed ≠ gPlaying.timerArmed := by
  refine ⟨by decide, by decide, by decide⟩

/-- Claim C6: `Forfeit(loserIdx)` leaves the game entirely unchanged
whenever the status is not Playing (so a late timer callback on a
finished game alters nothing); while Playing it finishes the game with
the opposite player's win and leaves the board unchanged. -/
theorem forfeit_spec (g : Game) (loserIdx : Fin 2) :
    (g.status ≠ .playing → g.forfeit loserIdx = g) ∧
    (g.status = .playing →
      (g.forfeit loserIdx).status = .finished ∧
      (g.forfeit loserIdx).result
        = (if loserIdx = 0 then GameResult.player1Win else GameResult.player0Win) ∧
      (g.forfeit loserIdx).board = g.board) := by
  constructor
  · intro h
    unfold Game.forfeit
    rw [if_pos h]
  · intro h
    unfold Game.forfeit
    rw [if_neg (by simpa using h)]
    exact ⟨rfl, rfl, by simp⟩

/-- Witness for C6 at a concrete input: a timer callback forfeiting an
already-finished game changes nothing. -/
theorem forfeit_spec_witness :
    gFinished.status ≠ GameStatus.playing ∧ gFinished.forfeit 0 = gFinished :=
  ⟨by decide, (forfeit_spec gFinished 0).1 (by decide)⟩

/-- Claim C5: `RequestReplay(playerIdx)` is a no-op returning false
unless the game is Finished; it marks the caller's replay flag and
returns true exactly when both flags have become true, in which case the
game restarts with an empty board, zero move count, no result, cleared
flags, full clocks, no last move, swapped players, `CurrentTurn = 0` and
status Playing. -/
theorem requestReplay_spec (g : Game) (i : Fin 2) :
    (g.status ≠ .finished → g.requestReplay i = (g, false)) ∧
    (g.status = .finished →
      ((g.requestReplay i).2 = true ↔
        (pset g.replayRequests i true).1 = true ∧
        (pset g.replayRequests i true).2 = true) ∧
      ((g.requestReplay i).2 = false →
        (g.requestReplay i).1 = { g with replayRequests := pset g.replayRequests i true }) ∧
      ((g.requestReplay i).2 = true →
        (∀ r < 6, ∀ c < 7, (g.requestReplay i).1.board.cells r c = Cell.empty) ∧
        (g.requestReplay i).1.moveCount = 0 ∧
        (g.requestReplay i).1.result = GameResult.none ∧
        (g.requestReplay i).1.replayRequests = (false, false) ∧
        (g.requestReplay i).1.timeRemaining = (g.initialClock, g.initialClock) ∧
        (g.requestReplay i).1.lastMove = none ∧
        (g.requestReplay i).1.players = (g.players.2, g.players.1) ∧
        (g.requestReplay i).1.currentTurn = 0 ∧
        (g.requestReplay i).1.status = GameStatus.playing)) := by
  constructor
  · intro h
    unfold Game.requestReplay
    rw [if_pos h]
  · intro h
    have hev : g.requestReplay i =
        (if (pset g.replayRequests i true).1 && (pset g.replayRequests i true).2 then
          (Game.swapBeginningPlayer
            (Game.resetGame { g with replayRequests := pset g.replayRequests i true }), true)
        else ({ g with replayRequests := pset g.replayRequests i true }, false)) := by
      unfold Game.requestReplay
      rw [if_neg (by simpa using h)]
    by_cases hb : ((pset g.replayRequests i true).1 && (pset g.replayRequests i true).2)
        = true
    · rw [if_pos hb] at hev
      rw [hev]
      simp only [Bool.and_eq_true] at hb
      refine ⟨by simpa using hb, by simp, ?_⟩
      intro _
      unfold Game.swapBeginningPlayer Game.resetGame
      refine ⟨?_, by simp, by simp, by simp, by simp, by simp, by simp, by simp, by simp⟩
      intro r hr c hc
      simp [Board.reset, hr, hc]
    · rw [if_neg hb] at hev
      rw [hev]
      simp only [Bool.and_eq_true] at hb
      exact ⟨by simpa using hb, fun _ => rfl, by simp⟩

/-- Witness for C5 at a concrete input: a finished game where the other
player has already requested a replay restarts with swapped players. -/
theorem requestReplay_spec_witness :
    gFinished.status = GameStatus.finished ∧
    (gFinished.requestReplay 0).1.players = (gFinished.players.2, gFinished.players.1) ∧
    (gFinished.requestReplay 0).1.status = GameStatus.playing := by
  refine ⟨by decide, ?_, ?_⟩
  · exact (((requestReplay_spec gFinished 0).2 (by decide)).2.2 (by decide)).2.2.2.2.2.2.1
  · exact (((requestReplay_spec gFinished 0).2 (by decide)).2.2 (by decide)).2.2.2.2.2.2.2.2

/-! Invariant G1 is preserved by every game operation. -/

theorem gameInv_of_eq {g g2 : Game} (hs : g2.status = g.status)
    (hr : g2.result = g.result) (hp : g2.players = g.players) (hg : gameInv g) :
    gameInv g2 := by
  unfold gameInv statusConsistent at hg ⊢
  rw [hs, hr, hp]
  exact hg

theorem gameInv_newGame (c : Int) : gameInv (newGame c) := by
  unfold gameInv statusConsistent newGame
  simp

theorem gameInv_addPlayer {g : Game} (hg : gameInv g) (p : Nat) (t : Fin 2) :
    gameInv (g.addPlayer p t).1 := by
  unfold Game.addPlayer
  by_cases h : g.status ≠ .waiting
  · rw [if_pos h]
    exact hg
  · rw [if_neg h]
    push_neg at h
    obtain ⟨⟨hw, hpl, hf⟩, hfin⟩ := hg
    have hres : g.result = .none := by
      by_contra hc
      rw [hf.mpr hc] at h
      cases h
    have hp2 : g.players.2 = none := hw.mp h
    cases hp1 : g.players.1 with
    | none =>
      dsimp only
      unfold gameInv statusConsistent
      simp [h, hp2, hres]
    | some q =>
      rw [hp2]
      dsimp only
      unfold gameInv statusConsistent Game.start
      simp [hp1, hres]

theorem play_success {g : Game} (h : g.status = .playing) {i : Fin 2}
    (hp : i = g.currentTurn) {col elapsed : Int} {node : Node} {b2 : Board}
    (hb : (g.stopTimer elapsed).board.play col
        (if i = 0 then Cell.player0 else Cell.player1) = some (node, b2)) :
    g.play i col elapsed =
      (let g2 : Game := { g.stopTimer elapsed with
          board := b2
          moveCount := (g.stopTimer elapsed).moveCount + 1
          lastMove := some (node.col, node.row) }
       if b2.checkWin node then
        ({ g2.stopOnly with
            status := .finished
            result := if i = 0 then GameResult.player0Win else GameResult.player1Win },
          none)
       else if b2.isFull then
        ({ g2.stopOnly with status := .finished, result := .draw }, none)
       else (Game.startTimer { g2 with currentTurn := 1 - g2.currentTurn }, none)) := by
  unfold Game.play
  rw [if_neg (by simpa using h), if_neg (by simpa using hp)]
  dsimp only
  rw [hb]

theorem gameInv_play {g : Game} (hg : gameInv g) (i : Fin 2) (col elapsed : Int) :
    gameInv (g.play i col elapsed).1 := by
  by_cases h1 : g.status = .playing
  · by_cases h2 : i = g.currentTurn
    · cases hb : (g.stopTimer elapsed).board.play col
          (if i = 0 then Cell.player0 else Cell.player1) with
      | none =>
        rw [play_invalid_move h1 h2 hb]
        exact gameInv_of_eq (by simp) (by simp) (by simp) hg
      | some pr =>
        obtain ⟨node, b2⟩ := pr
        rw [play_success h1 h2 hb]
        dsimp only
        obtain ⟨hpl1, hpl2, hres⟩ := hg.1.2.1.mp h1
        by_cases hw : b2.checkWin node = true
        · rw [if_pos hw]
          by_cases hi : i = 0
          · rw [if_pos hi]
            unfold gameInv statusConsistent
            simp [hpl1, hpl2]
          · rw [if_neg hi]
            unfold gameInv statusConsistent
            simp [hpl1, hpl2]
        · rw [if_neg hw]
          by_cases hf : b2.isFull = true
          · rw [if_pos hf]
            unfold gameInv statusConsistent
            simp [hpl1, hpl2]
          · rw [if_neg hf]
            exact gameInv_of_eq (by simp) (by simp) (by simp) hg
    · rw [play_wrong_turn h1 h2 col elapsed]
      exact hg
  · rw [play_not_playing h1 i col elapsed]
    exact hg

theorem gameInv_forfeit {g : Game} (hg : gameInv g) (i : Fin 2) :
    gameInv (g.forfeit i) := by
  unfold Game.forfeit
  by_cases h : g.status ≠ .playing
  · rw [if_pos h]
    exact hg
  · rw [if_neg h]
    push_neg at h
    obtain ⟨hpl1, hpl2, hres⟩ := hg.1.2.1.mp h
    by_cases hi : i = 0
    · rw [if_pos hi]
      unfold gameInv statusConsistent
      simp [hpl1, hpl2]
    · rw [if_neg hi]
      unfold gameInv statusConsistent
      simp [hpl1, hpl2]

theorem gameInv_requestReplay {g : Game} (hg : gameInv g) (i : Fin 2) :
    gameInv (g.requestReplay i).1 := by
  unfold Game.requestReplay
  by_cases h : g.status ≠ .finished
  · rw [if_pos h]
    exact hg
  · rw [if_neg h]
    push_neg at h
    obtain ⟨hpl1, hpl2⟩ := hg.2 h
    by_cases hb : ((pset g.replayRequests i true).1 && (pset g.replayRequests i true).2)
        = true
    · rw [if_pos hb]
      dsimp only
      unfold Game.swapBeginningPlayer Game.resetGame
      unfold gameInv statusConsistent
      simp [hpl1, hpl2]
    · rw [if_neg hb]
      dsimp only
      exact gameInv_of_eq rfl rfl rfl hg

/-- Claim C4: invariant G1 holds in every reachable game state (hence
before and after every AddPlayer, Play, Forfeit and RequestReplay):
Waiting iff `Players[1]` is absent; Playing iff both players are present
and `Result = None`; Finished iff `Result ≠ None`. -/
theorem reachable_statusConsistent (g : Game) (h : GReach g) : statusConsistent g := by
  have hInv : gameInv g := by
    induction h with
    | new c => exact gameInv_newGame c
    | addPlayer p t _ ih => exact gameInv_addPlayer ih p t
    | play i col elapsed _ ih => exact gameInv_play ih i col elapsed
    | forfeit i _ ih => exact gameInv_forfeit ih i
    | requestReplay i _ ih => exact gameInv_requestReplay ih i
  exact hInv.1

/-- Witness for C4 at a concrete input: the freshly created game. -/
theorem reachable_statusConsistent_witness : statusConsistent (newGame 150) :=
  reachable_statusConsistent (newGame 150) (GReach.new 150)

/-! Counting invariants (B1 and G3). -/

theorem colCount_of_inv {b : Board} (hinv : boardInv b) {c : Nat} (hc : c < 7) :
    colCount b c = b.colHeights c := by
  obtain ⟨hh, hcells⟩ := hinv c hc
  unfold colCount
  have hfil : (List.range 6).filter (fun r => decide (b.cells r c ≠ Cell.empty)) =
      (List.range 6).filter (fun r => decide (6 - b.colHeights c ≤ r)) := by
    apply List.filter_congr
    intro r hr
    exact decide_eq_decide.mpr (hcells r (List.mem_range.mp hr))
  rw [hfil]
  have key : ∀ h < 7,
      ((List.range 6).filter fun r => decide (6 - h ≤ r)).length = min h 6 := by decide
  have := key (b.colHeights c) (by omega)
  omega

theorem totalCount_eq_heightsSum {b : Board} (hinv : boardInv b) :
    totalCount b = heightsSum b := by
  unfold totalCount heightsSum
  congr 1
  apply List.map_congr_left
  intro c hc
  exact colCount_of_inv hinv (List.mem_range.mp hc)

theorem sum_range_map_bump {f f2 : Nat → Nat} {c : Nat} :
    ∀ {n : Nat}, c < n → (∀ x, f2 x = if x = c then f x + 1 else f x) →
      ((List.range n).map f2).sum = ((List.range n).map f).sum + 1 := by
  intro n
  induction n with
  | zero => omega
  | succ m ih =>
    intro hc heq
    rw [List.range_succ, List.map_append, List.map_append, List.sum_append,
      List.sum_append]
    by_cases hcm : c = m
    · have h1 : (List.range m).map f2 = (List.range m).map f := by
        apply List.map_congr_left
        intro x hx
        rw [heq x, if_neg (by have := List.mem_range.mp hx; omega)]
      have h2 : f2 m = f m + 1 := by
        rw [heq m, if_pos hcm.symm]
      simp [h1, h2]
      omega
    · have h2 : f2 m = f m := by
        rw [heq m, if_neg (fun hmc => hcm hmc.symm)]
      rw [ih (by omega) heq]
      simp only [List.map_cons, List.map_nil, List.sum_cons, List.sum_nil, h2]
      omega

theorem boardInv_reset (b : Board) : boardInv b.reset := by
  intro c hc
  refine ⟨by simp [Board.reset, hc], ?_⟩
  intro r hr
  simp [Board.reset, hc, hr]

theorem boardInv_play {b : Board} {col : Int} {owner : Cell} {n : Node} {b2 : Board}
    (hinv : boardInv b) (howner : owner ≠ Cell.empty)
    (hp : b.play col owner = some (n, b2)) : boardInv b2 := by
  obtain ⟨⟨h0, h7, hh⟩, hn, hb2⟩ := play_eq_some hp
  subst hb2
  intro c2 hc2
  obtain ⟨hhc2, hcellsc2⟩ := hinv c2 hc2
  by_cases hc : c2 = col.toNat
  · subst hc
    constructor
    · show (if col.toNat = col.toNat then b.colHeights col.toNat + 1
            else b.colHeights col.toNat) ≤ 6
      rw [if_pos rfl]
      omega
    · intro r hr
      show (if r = 6 - 1 - b.colHeights col.toNat ∧ col.toNat = col.toNat then owner
            else b.cells r col.toNat) ≠ Cell.empty ↔
        6 - (if col.toNat = col.toNat then b.colHeights col.toNat + 1
             else b.colHeights col.toNat) ≤ r
      rw [if_pos rfl]
      by_cases hrow : r = 6 - 1 - b.colHeights col.toNat
      · rw [if_pos ⟨hrow, rfl⟩]
        constructor
        · intro _
          omega
        · intro _
          exact howner
      · rw [if_neg (fun hcon => hrow hcon.1)]
        rw [hcellsc2 r hr]
        omega
  · constructor
    · show (if c2 = col.toNat then b.colHeights c2 + 1 else b.colHeights c2) ≤ 6
      rw [if_neg hc]
      exact hhc2
    · intro r hr
      show (if r = 6 - 1 - b.colHeights col.toNat ∧ c2 = col.toNat then owner
            else b.cells r c2) ≠ Cell.empty ↔
        6 - (if c2 = col.toNat then b.colHeights c2 + 1 else b.colHeights c2) ≤ r
      rw [if_neg (fun hcon => hc hcon.2), if_neg hc]
      exact hcellsc2 r hr

@[simp] theorem swapBeginningPlayer_board (g : Game) :
    g.swapBeginningPlayer.board = g.board := rfl

@[simp] theorem swapBeginningPlayer_moveCount (g : Game) :
    g.swapBeginningPlayer.moveCount = g.moveCount := rfl

@[simp] theorem resetGame_board (g : Game) : g.resetGame.board = g.board.reset := by
  unfold Game.resetGame
  dsimp only
  simp

@[simp] theorem resetGame_moveCount (g : Game) : g.resetGame.moveCount = 0 := by
  unfold Game.resetGame
  dsimp only
  simp

theorem totalCount_play {b : Board} {col : Int} {owner : Cell} {n : Node} {b2 : Board}
    (hinv : boardInv b) (howner : owner ≠ Cell.empty)
    (hp : b.play col owner = some (n, b2)) : totalCount b2 = totalCount b + 1 := by
  obtain ⟨⟨h0, h7, hh⟩, hn, hb2⟩ := play_eq_some hp
  have hinv2 := boardInv_play hinv howner hp
  rw [totalCount_eq_heightsSum hinv, totalCount_eq_heightsSum hinv2]
  subst hb2
  unfold heightsSum
  exact sum_range_map_bump (f := b.colHeights) (by omega) (fun x => rfl)

theorem totalCount_reset (b : Board) : totalCount b.reset = 0 := by
  unfold totalCount
  have hz : ∀ c ∈ List.range 7, colCount b.reset c = 0 := by
    intro c hc
    unfold colCount
    rw [show (List.range 6).filter
          (fun r => decide (b.reset.cells r c ≠ Cell.empty)) = [] from ?_]
    · rfl
    · rw [List.filter_eq_nil_iff]
      intro r hr
      simp [Board.reset, List.mem_range.mp hr, List.mem_range.mp hc]
  rw [List.map_congr_left hz]
  simp

theorem boardInv_newBoard : boardInv newBoard := by
  intro c hc
  refine ⟨by simp [newBoard], ?_⟩
  intro r hr
  simp [newBoard]
  omega

theorem breach_boardInv {b : Board} (h : BReach b) : boardInv b := by
  induction h with
  | new => exact boardInv_newBoard
  | play col owner n b2 howner hp _ ih =>
    refine boardInv_play ih ?_ hp
    rcases howner with h | h <;> (rw [h]; intro hcon; cases hcon)
  | reset ih => exact boardInv_reset _

theorem addPlayer_board_moveCount (g : Game) (p : Nat) (t : Fin 2) :
    (g.addPlayer p t).1.board = g.board ∧ (g.addPlayer p t).1.moveCount = g.moveCount := by
  unfold Game.addPlayer
  by_cases h : g.status ≠ .waiting
  · rw [if_pos h]
    exact ⟨rfl, rfl⟩
  · rw [if_neg h]
    cases g.players.1 with
    | none => exact ⟨rfl, rfl⟩
    | some q =>
      cases g.players.2 with
      | none =>
        unfold Game.start
        exact ⟨by simp, by simp⟩
      | some q2 => exact ⟨rfl, rfl⟩

theorem forfeit_board_moveCount (g : Game) (i : Fin 2) :
    (g.forfeit i).board = g.board ∧ (g.forfeit i).moveCount = g.moveCount := by
  unfold Game.forfeit
  by_cases h : g.status ≠ .playing
  · rw [if_pos h]
    exact ⟨rfl, rfl⟩
  · rw [if_neg h]
    exact ⟨by simp, by simp⟩

theorem greach_counts {g : Game} (h : GReach g) :
    g.moveCount = totalCount g.board ∧ boardInv g.board := by
  induction h with
  | new c =>
    constructor
    · show (0 : Nat) = totalCount newBoard
      decide
    · exact boardInv_newBoard
  | addPlayer p t _ ih =>
    obtain ⟨hb, hm⟩ := addPlayer_board_moveCount _ p t
    rw [hb, hm]
    exact ih
  | play i col elapsed _ ih =>
    rename_i g0 _
    by_cases h1 : g0.status = .playing
    · by_cases h2 : i = g0.currentTurn
      · cases hb : (g0.stopTimer elapsed).board.play col
            (if i = 0 then Cell.player0 else Cell.player1) with
        | none =>
          rw [play_invalid_move h1 h2 hb]
          simpa using ih
        | some pr =>
          obtain ⟨node, b2⟩ := pr
          rw [play_success h1 h2 hb]
          dsimp only
          have howner : (if i = 0 then Cell.player0 else Cell.player1) ≠ Cell.empty := by
            split <;> (intro hcon; cases hcon)
          rw [show (g0.stopTimer elapsed).board = g0.board from by simp] at hb
          have hcnt := totalCount_play ih.2 howner hb
          have hinv2 := boardInv_play ih.2 howner hb
          by_cases hw : b2.checkWin node = true
          · rw [if_pos hw]
            refine ⟨?_, by simpa using hinv2⟩
            simp [hcnt, ih.1]
          · rw [if_neg hw]
            by_cases hf : b2.isFull = true
            · rw [if_pos hf]
              refine ⟨?_, by simpa using hinv2⟩
              simp [hcnt, ih.1]
            · rw [if_neg hf]
              refine ⟨?_, by simpa using hinv2⟩
              simp [hcnt, ih.1]
      · rw [play_wrong_turn h1 h2 col elapsed]
        exact ih
    · rw [play_not_playing h1 i col elapsed]
      exact ih
  | forfeit i _ ih =>
    rename_i g0 _
    obtain ⟨hb, hm⟩ := forfeit_board_moveCount g0 i
    rw [hb, hm]
    exact ih
  | requestReplay i _ ih =>
    rename_i g0 _
    unfold Game.requestReplay
    by_cases h : g0.status ≠ .finished
    · rw [if_pos h]
      exact ih
    · rw [if_neg h]
      dsimp only
      by_cases hb : ((pset g0.replayRequests i true).1 &&
          (pset g0.replayRequests i true).2) = true
      · rw [if_pos hb]
        dsimp only
        constructor
        · simp [totalCount_reset]
        · simp only [swapBeginningPlayer_board, resetGame_board]
          exact boardInv_reset _
      · rw [if_neg hb]
        exact ih

/-- Claim C7: in every reachable game state, `MoveCount` equals the
number of non-empty cells on the board and `colHeights[c]` equals the
number of non-empty cells of column `c`; the per-column count also holds
for every board reachable by `Board.Play` / `Board.Reset` alone. -/
theorem moveCount_matches_board :
    (∀ g : Game, GReach g → g.moveCount = totalCount g.board ∧
      ∀ c < 7, g.board.colHeights c = colCount g.board c) ∧
    (∀ b : Board, BReach b → ∀ c < 7, b.colHeights c = colCount b c) := by
  constructor
  · intro g hg
    obtain ⟨hm, hinv⟩ := greach_counts hg
    exact ⟨hm, fun c hc => (colCount_of_inv hinv hc).symm⟩
  · intro b hb c hc
    exact (colCount_of_inv (breach_boardInv hb) hc).symm

/-- Witness for C7 at a concrete input: the freshly created game and the
fresh board. -/
theorem moveCount_matches_board_witness :
    (newGame 150).moveCount = totalCount (newGame 150).board ∧
    newBoard.colHeights 0 = colCount newBoard 0 :=
  ⟨(moveCount_matches_board.1 (newGame 150) (GReach.new 150)).1,
    moveCount_matches_board.2 newBoard BReach.new 0 (by omega)⟩

/-! Matchmaking queue uniqueness. -/

theorem removeFirst_sublist : ∀ (q : List Nat) (pid : Nat), (removeFirst q pid).Sublist q := by
  intro q pid
  induction q with
  | nil => simp [removeFirst]
  | cons x xs ih =>
    unfold removeFirst
    by_cases h : x = pid
    · rw [if_pos h]
      exact (List.sublist_cons_self x xs)
    · rw [if_neg h]
      exact ih.cons₂ x

theorem joinQueue_nodup {q : List Nat} (h : q.Nodup) (pid : Nat) :
    (joinQueue q pid).Nodup := by
  unfold joinQueue
  by_cases hm : pid ∈ q
  · rw [if_pos hm]
    exact h
  · rw [if_neg hm]
    simp [List.nodup_append, h, List.disjoint_singleton, hm]

theorem removeFirst_nodup {q : List Nat} (h : q.Nodup) (pid : Nat) :
    (removeFirst q pid).Nodup :=
  (removeFirst_sublist q pid).nodup h

theorem tryMatch_nodup {q : List Nat} (h : q.Nodup) (conn : Nat → Bool) :
    (tryMatch q conn).Nodup := by
  unfold tryMatch
  match q, h with
  | [], _ => exact List.nodup_nil
  | [p1], h => exact h
  | p1 :: p2 :: rest, h =>
    simp only [List.nodup_cons, List.mem_cons] at h
    obtain ⟨hp1, hp2, hrest⟩ := h
    dsimp only
    by_cases h12 : (conn p1 && conn p2) = true
    · rw [if_pos h12]
      exact hrest
    · rw [if_neg h12]
      by_cases hc1 : conn p1 = true
      · rw [if_pos hc1]
        by_cases hc2 : conn p2 = true
        · rw [if_pos hc2]
          refine List.nodup_cons.mpr ⟨?_, List.nodup_cons.mpr ⟨?_, hrest⟩⟩
          · simp only [List.mem_cons]
            rintro (hcon | hcon)
            · exact hp1 (Or.inl hcon.symm)
            · exact hp2 hcon
          · intro hcon
            exact hp1 (Or.inr hcon)
        · rw [if_neg hc2]
          refine List.nodup_cons.mpr ⟨?_, hrest⟩
          intro hcon
          exact hp1 (Or.inr hcon)
      · rw [if_neg hc1]
        by_cases hc2 : conn p2 = true
        · rw [if_pos hc2]
          exact List.nodup_cons.mpr ⟨hp2, hrest⟩
        · rw [if_neg hc2]
          exact hrest

/-- Claim C8: after any command sequence over joinMatchmaking,
leaveMatchmaking, tryMatch and disconnect cleanup, the matchmaking queue
contains no duplicate player ids. -/
theorem queue_nodup (q : List Nat) (h : QReach q) : q.Nodup := by
  induction h with
  | nil => exact List.nodup_nil
  | join pid _ ih => exact joinQueue_nodup ih pid
  | leave pid _ ih => exact removeFirst_nodup ih pid
  | tryMatch conn _ ih => exact tryMatch_nodup ih conn
  | disconnect pid _ ih => exact removeFirst_nodup ih pid

/-- Witness for C8 at a concrete input: a queue built by two joins and a
match attempt. -/
theorem queue_nodup_witness :
    (tryMatch (joinQueue (joinQueue [] 1) 2) (fun _ => true)).Nodup :=
  queue_nodup _ (QReach.tryMatch _ (QReach.join 2 (QReach.join 1 QReach.nil)))

/-! Login. -/

theorem login_reuse {lobby : List SPlayer} {username : String} {pid : String}
    {p0 : SPlayer} (freshId : String) (hfind : lookupPlayer lobby pid = some p0) :
    (handleLogin lobby username (some pid) freshId).2 = .ok pid ∧
    lookupPlayer (handleLogin lobby username (some pid) freshId).1 pid =
      some { p0 with username := username } := by
  unfold handleLogin
  dsimp only
  rw [hfind]
  refine ⟨rfl, ?_⟩
  unfold lookupPlayer at hfind ⊢
  dsimp only
  rw [List.find?_map]
  have hcomp : ((fun p : SPlayer => decide (p.id = pid)) ∘
      (fun p : SPlayer => if p.id = pid then { p with username := username } else p)) =
      fun p : SPlayer => decide (p.id = pid) := by
    funext p
    by_cases hip : p.id = pid
    · simp [hip]
    · simp [hip]
  rw [hcomp, hfind]
  have hid : p0.id = pid := by simpa using List.find?_some hfind
  simp [hid]

/-- Claim C9: when a supplied prior PlayerID matches an existing player,
login never fails — the player is reused and its username overwritten
with the supplied string; otherwise a new player is created, and login
fails with the invalid-username error exactly when the username trims to
the empty string, in which case no player is added to the lobby. -/
theorem login_spec (lobby : List SPlayer) (username : String) (prior : Option String)
    (freshId : String) :
    (∀ pid p0, prior = some pid → lookupPlayer lobby pid = some p0 →
      (handleLogin lobby username prior freshId).2 = .ok pid ∧
      lookupPlayer (handleLogin lobby username prior freshId).1 pid =
        some { p0 with username := username }) ∧
    ((prior = none ∨ ∃ pid, prior = some pid ∧ lookupPlayer lobby pid = none) →
      ((handleLogin lobby username prior freshId).2 = .err ↔ username.trim = "") ∧
      ((handleLogin lobby username prior freshId).2 = .err →
        (handleLogin lobby username prior freshId).1 = lobby) ∧
      (username.trim ≠ "" →
        (handleLogin lobby username prior freshId).1 =
          lobby ++ [{ id := freshId, username := username.trim }])) := by
  constructor
  · rintro pid p0 rfl hfind
    exact login_reuse freshId hfind
  · intro hnew
    have hev : handleLogin lobby username prior freshId =
        loginNew lobby username freshId := by
      rcases hnew with rfl | ⟨pid, rfl, hnone⟩
      · rfl
      · unfold handleLogin
        dsimp only
        rw [hnone]
    rw [hev]
    unfold loginNew
    by_cases ht : username.trim = ""
    · rw [if_pos ht]
      exact ⟨by simp [ht], fun _ => rfl, fun hcon => absurd ht hcon⟩
    · rw [if_neg ht]
      refine ⟨?_, ?_, fun _ => rfl⟩
      · constructor
        · intro hcon
          cases hcon
        · intro hcon
          exact absurd hcon ht
      · intro hcon
        cases hcon

/-- Witness for C9 at a concrete input: reconnecting with the prior id
of the only lobby player renames that player and succeeds. -/
theorem login_spec_witness :
    (handleLogin [⟨"A", "ann"⟩] "bob" (some "A") "F").2 = LoginOut.ok "A" ∧
    lookupPlayer (handleLogin [⟨"A", "ann"⟩] "bob" (some "A") "F").1 "A" =
      some ⟨"A", "bob"⟩ :=
  (login_spec [⟨"A", "ann"⟩] "bob" (some "A") "F").1 "A" ⟨"A", "ann"⟩ rfl (by decide)

end GOnnect4
